import Mathlib

/-
Formal model of the `astrbot_plugin_llm_executor` plugin (src/main.py).

The development shallowly embeds the plugin's core: the handler index built by
`_build_handler_cache`, the policy gate `_can_execute`, the message synthesizer
`_build_message_components`, the identity substitution wrapper
`BotIdentityEventWrapper`, the result extractor `_extract_content_from_result`,
and the invocation pipeline `execute_command` (state mutation, handler
invocation, fan-out delivery, state restoration, response construction).

Python dictionaries are modelled as association lists (`lookupA`/`insertA`
reproduce `dict.get` and `dict[k] = v`).  Python strings are Lean `String`s;
`None`-or-empty string parameters are modelled as `""` where the source only
ever tests them for truthiness.  The aliasing that matters for the claims —
`event.message_obj` is captured by reference and its `message` field is mutated
in place — is modelled by keeping the content of `message_obj.message` as a
field of the event state: re-assigning the `message_obj` attribute to the
captured reference does not change that content.
-/

namespace LLMExecutor

/-! ## Association lists modelling Python dicts -/

/-- Python `dict.get(k)` on an association list. -/
def lookupA {α : Type} (k : String) : List (String × α) → Option α
  | [] => none
  | (k', v) :: t => if k' = k then some v else lookupA k t

/-- Python `d[k] = v` on an association list: replaces the value in place when the key
is present (preserving position, as a Python dict does), appends otherwise. -/
def insertA {α : Type} (m : List (String × α)) (k : String) (v : α) :
    List (String × α) :=
  if (lookupA k m).isSome then
    m.map (fun p => if p.1 = k then (k, v) else p)
  else
    m ++ [(k, v)]

/-! ## Python string helpers

The built-in `String` operations for trimming, prefix tests and splitting are
implemented on byte positions and do not reduce inside the kernel, so the
Python string operations the source uses are modelled here directly on the
character list underlying a `String`. -/

/-- Python's `s.startswith(pre)`. -/
def pyStartsWith (s pre : String) : Bool :=
  pre.data.isPrefixOf s.data

/-- Python's `s[1:]`. -/
def pyDrop1 (s : String) : String :=
  String.mk (s.data.drop 1)

/-- Strip one leading "/" as done by the source's normalization steps
(`if x.startswith("/"): x = x[1:]`). -/
def stripSlash (s : String) : String :=
  if pyStartsWith s "/" then pyDrop1 s else s

/-- Python's `s.strip()`: drop leading and trailing whitespace. -/
def pyStrip (s : String) : String :=
  String.mk
    (((s.data.dropWhile (fun c => c.isWhitespace)).reverse.dropWhile
      (fun c => c.isWhitespace)).reverse)

/-- Substring containment on character lists, modelling Python's `in`. -/
def subChars (needle : List Char) : List Char → Bool
  | [] => needle.isPrefixOf []
  | c :: t => needle.isPrefixOf (c :: t) || subChars needle t

/-- Python's `needle in hay` for strings. -/
def containsSub (needle hay : String) : Bool :=
  subChars needle.data hay.data

/-- The worker for `pySplit`: `buf` holds the reversed current token. -/
def pySplitAux : List Char → List Char → List String
  | buf, [] => if buf = [] then [] else [String.mk buf.reverse]
  | buf, c :: t =>
    if c.isWhitespace then
      if buf = [] then pySplitAux [] t
      else String.mk buf.reverse :: pySplitAux [] t
    else pySplitAux (c :: buf) t

/-- Python's `s.split()` with no separator: the maximal runs of
non-whitespace characters, in order. -/
def pySplit (s : String) : List String :=
  pySplitAux [] s.data

/-- Python's `s.isdigit()` (restricted to ASCII digits, which is the only
case the source meets given that it feeds the result to `int`). -/
def isDigits (s : String) : Bool :=
  s ≠ "" && s.data.all (fun c => c.isDigit)

/-- Python's `int(s)` on a string of ASCII digits. -/
def digitsToNat (s : String) : Nat :=
  s.data.foldl (fun a c => a * 10 + (c.toNat - 48)) 0

/-- Python's `" ".join(xs)` specialised to a separator string. -/
def pyJoin (sep : String) : List String → String
  | [] => ""
  | [x] => x
  | x :: xs => x ++ sep ++ pyJoin sep xs

/-! ## Message components (astrbot.core.message.components) -/

/-- Message segments used by the plugin: `Plain`, `At`, `Image`, and `Reply`.
The source only ever builds a `Reply` wrapping a single image component
(`Reply(id=0, sender_id=0, chain=[img_comp])`), which is modelled by storing
that image's url/file references directly. -/
inductive Component where
  | Plain (text : String)
  | At (qq : String)
  | Img (url : String) (file : String)
  | ReplyBox (id : Nat) (senderId : Nat) (imgUrl : String) (imgFile : String)
  deriving DecidableEq, Repr

/-- Model of `Image.fromURL(url)`: an image component referencing `url` (the file
reference also carries the URL). -/
def imageFromURL (url : String) : Component :=
  Component.Img url url

/-! ## Handler registry and handler index (`_build_handler_cache`) -/

/-- The event filters the index inspects: `CommandFilter` (with an alias
set/list, `[]` modelling an absent or empty alias), `CommandGroupFilter`,
`PermissionTypeFilter`, and any other filter kind. -/
inductive EventFilter where
  | commandF (name : String) (aliasList : List String)
  | groupF (name : String)
  | permissionF
  | otherF
  deriving DecidableEq, Repr

/-- Does a filter declare a command or a command group? -/
def isCommandOrGroup (f : EventFilter) : Bool :=
  match f with
  | EventFilter.commandF _ _ => true
  | EventFilter.groupF _ => true
  | EventFilter.permissionF => false
  | EventFilter.otherF => false

/-- One entry of `star_handlers_registry`.  `isMeta` models the
`isinstance(handler, StarHandlerMetadata)` test; `desc = ""` models a missing
(`None` or empty) description; `hid` is the opaque invocable reference. -/
structure RegEntry where
  isMeta : Bool
  module_path : String
  desc : String
  filters : List EventFilter
  hid : Nat
  deriving DecidableEq, Repr

/-- An active-extension record as seen through `context.get_all_stars()`.
`module_path = ""` models a missing module path (falsy in the source). -/
structure StarInfo where
  name : String
  module_path : String
  activated : Bool
  deriving DecidableEq, Repr

/-- One `handler_info` dict of the cache. -/
structure HandlerInfo where
  command : String
  description : String
  plugin : String
  aliases : List String
  is_admin : Bool
  handler : Nat
  module_path : String
  deriving DecidableEq, Repr

/-- The pair of maps the rebuild produces: `_handler_cache` and
`_alias_to_command`. -/
structure HandlerCaches where
  handler_cache : List (String × HandlerInfo)
  alias_to_command : List (String × String)
  deriving DecidableEq, Repr

/-- The fixed set of skipped plugins. -/
def skipPlugins : List String :=
  ["astrbot", "astrbot_plugin_llm_executor", "astrbot_plugin_command_query",
   "astrbot-reminder"]

/-- The `module_path -> plugin_name` index built over the active stars
(the source keeps `(star, plugin_name)`; only the name is ever used). -/
def buildModuleMap (active : List StarInfo) : List (String × String) :=
  active.foldl
    (fun m star =>
      if star.name ∈ skipPlugins ∨ star.module_path = "" then m
      else insertA m star.module_path star.name)
    []

/-- The filter scan of `_build_handler_cache`: starting from
`command_name = None, aliases = [], is_admin = False`, a `CommandFilter` sets
the name and (only when truthy) the aliases, a `CommandGroupFilter` sets the
name, a `PermissionTypeFilter` sets the admin flag. -/
def scanFilters (filters : List EventFilter) :
    Option String × List String × Bool :=
  filters.foldl
    (fun st f =>
      match f with
      | EventFilter.commandF n al =>
          (some n, (if al = [] then st.2.1 else al), st.2.2)
      | EventFilter.groupF n => (some n, st.2.1, st.2.2)
      | EventFilter.permissionF => (st.1, st.2.1, true)
      | EventFilter.otherF => st)
    (none, [], false)

/-- Processing of one registry entry (the body of the registry loop). -/
def cacheStep (module_to_star : List (String × String))
    (caches : HandlerCaches) (h : RegEntry) : HandlerCaches :=
  if ¬ h.isMeta then caches
  else
    match lookupA h.module_path module_to_star with
    | none => caches
    | some plugin_name =>
      match scanFilters h.filters with
      | (command_name?, aliases, is_admin) =>
        match command_name? with
        | none => caches
        | some cn =>
          if cn = "" then caches
          else
            let command_name := stripSlash cn
            let info : HandlerInfo :=
              { command := command_name,
                description := if h.desc = "" then "无描述" else h.desc,
                plugin := plugin_name,
                aliases := aliases,
                is_admin := is_admin,
                handler := h.hid,
                module_path := h.module_path }
            { handler_cache := insertA caches.handler_cache command_name info,
              alias_to_command :=
                aliases.foldl
                  (fun al a => insertA al (stripSlash a) command_name)
                  caches.alias_to_command }

/-- Model of `_build_handler_cache`: clear both maps, list the activated stars (on an
empty list the source logs and returns with the maps still empty), build the
module index, then fold once over the handler registry. -/
def buildHandlerCache (stars : List StarInfo) (registry : List RegEntry) :
    HandlerCaches :=
  let all_stars := stars.filter (fun s => s.activated)
  if all_stars = [] then { handler_cache := [], alias_to_command := [] }
  else
    let module_to_star := buildModuleMap all_stars
    registry.foldl (cacheStep module_to_star)
      { handler_cache := [], alias_to_command := [] }

/-- The resolution performed at the start of `_can_execute` (strip one leading
slash, resolve the alias with the name itself as fallback, fetch the record). -/
def resolveHandler (caches : HandlerCaches) (name : String) :
    Option HandlerInfo :=
  let command := stripSlash name
  let actual := (lookupA command caches.alias_to_command).getD command
  lookupA actual caches.handler_cache

/-! ## Plugin state and the policy gate (`_can_execute`) -/

/-- The plugin's configuration plus its two cached maps. -/
structure PluginState where
  enabled : Bool
  whitelist : List String
  blacklist : List String
  allow_admin_commands : Bool
  admin_users : List String
  bot_user_id : String
  enable_forward : Bool
  forward_threshold : Nat
  handler_cache : List (String × HandlerInfo)
  alias_to_command : List (String × String)
  deriving DecidableEq, Repr

/-- Model of `_can_execute(command, event)`; the event only contributes
`str(event.get_sender_id())`, passed here as `senderId`. -/
def canExecute (st : PluginState) (command0 : String) (senderId : String) :
    Bool × String :=
  if ¬ st.enabled then (false, "LLM指令执行器已禁用")
  else
    let command := stripSlash command0
    let actual_command := (lookupA command st.alias_to_command).getD command
    match lookupA actual_command st.handler_cache with
    | none => (false, "未找到指令: " ++ command)
    | some handler_info =>
      if st.whitelist ≠ [] ∧ actual_command ∉ st.whitelist ∧
          command ∉ st.whitelist then
        (false, "指令 " ++ command ++ " 不在白名单中")
      else if st.blacklist ≠ [] ∧
          (actual_command ∈ st.blacklist ∨ command ∈ st.blacklist) then
        (false, "指令 " ++ command ++ " 在黑名单中")
      else if handler_info.is_admin then
        if senderId ∈ st.admin_users then (true, "可以执行（管理员用户）")
        else if ¬ st.allow_admin_commands then
          (false, "指令 " ++ command ++ " 需要管理员权限，你不在管理员列表中")
        else (true, "可以执行")
      else (true, "可以执行")

/-! ## Message synthesizer (`_build_message_components`) -/

/-- One step of the placeholder-mode token loop: the running state is the
component list built so far and the accumulated `text_buffer`. -/
def placeholderStep (at_qq_list : List String)
    (st : List Component × List String) (part : String) :
    List Component × List String :=
  if pyStartsWith part "@" ∧ part.length > 1 ∧ isDigits (pyDrop1 part) then
    let idx := digitsToNat (pyDrop1 part)
    if idx < at_qq_list.length then
      let comps :=
        if st.2 ≠ [] then
          st.1 ++ [Component.Plain (" " ++ pyJoin " " st.2)]
        else st.1
      (comps ++ [Component.At (at_qq_list.getD idx "")], [])
    else (st.1, st.2 ++ [part])
  else (st.1, st.2 ++ [part])

/-- Model of `_build_message_components(command, args, at_qq_list, reply_image_url)`.
`reply_image_url = ""` models an absent (`None` or empty, both falsy) image
reference.  The `At`/`Image` constructor calls cannot fail in the model, so the
source's per-component exception fallbacks are unreachable here. -/
def buildMessageComponents (command : String) (args : String)
    (at_qq_list : List String) (reply_image_url : String) : List Component :=
  let components : List Component :=
    if reply_image_url ≠ "" then
      match imageFromURL reply_image_url with
      | Component.Img u f => [Component.ReplyBox 0 0 u f]
      | _ => []
    else []
  if at_qq_list ≠ [] ∧ args ≠ "" then
    let has_placeholders :=
      (List.range at_qq_list.length).any
        (fun i => containsSub ("@" ++ toString i) args)
    if has_placeholders then
      let components := components ++ [Component.Plain ("/" ++ command)]
      let arg_parts := pySplit args
      let folded := arg_parts.foldl (placeholderStep at_qq_list) (components, [])
      if folded.2 ≠ [] then
        folded.1 ++ [Component.Plain (" " ++ pyJoin " " folded.2)]
      else folded.1
    else
      let components := components ++ [Component.Plain ("/" ++ command)] ++
        at_qq_list.map (fun qq => Component.At qq)
      if args ≠ "" then components ++ [Component.Plain (" " ++ args)]
      else components
  else
    let command_text :=
      if args ≠ "" then "/" ++ command ++ " " ++ args else "/" ++ command
    (components ++ [Component.Plain command_text]) ++
      at_qq_list.map (fun qq => Component.At qq)

/-! ## Events and the identity substitution wrapper -/

/-- A Python attribute value, as far as the wrapper's contract needs:
a string, an event-object reference, or a bound `get_sender_id` method
returning `ret` when called. -/
inductive PyVal where
  | str (v : String)
  | evObj
  | senderMethod (ret : String)
  deriving DecidableEq, Repr

/-- A host message event, reduced to the members the plugin touches:
the sender identity behind `get_sender_id`, and a dictionary of other
attributes. -/
structure PyEvent where
  sender_id : String
  attrs : List (String × PyVal)
  deriving DecidableEq, Repr

/-- Python `getattr(event, name)`: `get_sender_id` resolves to the event's own bound
accessor; any other name is looked up among the data attributes. -/
def eventGetAttr (e : PyEvent) (name : String) : Option PyVal :=
  if name = "get_sender_id" then some (PyVal.senderMethod e.sender_id)
  else lookupA name e.attrs

/-- Python `setattr(event, name, v)`. -/
def eventSetAttr (e : PyEvent) (name : String) (v : PyVal) : PyEvent :=
  { e with attrs := insertA e.attrs name v }

/-- The accessor `event.get_sender_id()`. -/
def eventGetSenderId (e : PyEvent) : String :=
  e.sender_id

/-- The proxy `BotIdentityEventWrapper(original_event, bot_user_id)`.  In Python the
wrapper holds a reference to the original event; here the original's state is
carried in the `_original_event` field and every state-returning operation
threads it through. -/
structure BotIdentityEventWrapper where
  _original_event : PyEvent
  _bot_user_id : String
  deriving DecidableEq, Repr

/-- The overridden `get_sender_id()` of the wrapper. -/
def wrapperGetSenderId (w : BotIdentityEventWrapper) : String :=
  w._bot_user_id

/-- Attribute reads on the wrapper.  Python resolves the wrapper's own members
first — the class method `get_sender_id` and the two instance-dict fields
`_original_event` and `_bot_user_id` — and `__getattr__` delegates every name
that is not found on the wrapper to the original event. -/
def wrapperGetAttr (w : BotIdentityEventWrapper) (name : String) :
    Option PyVal :=
  if name = "get_sender_id" then some (PyVal.senderMethod w._bot_user_id)
  else if name = "_original_event" then some PyVal.evObj
  else if name = "_bot_user_id" then some (PyVal.str w._bot_user_id)
  else eventGetAttr w._original_event name

/-- Model of `__setattr__` of the wrapper: the two internal names go to the wrapper
itself (`object.__setattr__`; in this typed model only a string value can land
in `_bot_user_id`, which is the only case the source exercises), every other
name is forwarded with `setattr` to the original event. -/
def wrapperSetAttr (w : BotIdentityEventWrapper) (name : String) (v : PyVal) :
    BotIdentityEventWrapper :=
  if name = "_original_event" ∨ name = "_bot_user_id" then
    if name = "_bot_user_id" then
      match v with
      | PyVal.str s => { w with _bot_user_id := s }
      | _ => w
    else w
  else
    { w with _original_event := eventSetAttr w._original_event name v }

/-! ## Results and content extraction (`_extract_content_from_result`) -/

/-- The result shapes `_extract_content_from_result` distinguishes: an object
with a `chain` of components (a `MessageEventResult`), a bare string, and an
object carrying only a `result_message` field. -/
inductive ResultObj where
  | chainRes (chain : List Component)
  | strRes (s : String)
  | msgRes (s : String)
  deriving DecidableEq, Repr

/-- The per-component accumulation inside the chain loop.  A `Plain` text is
appended whether or not it is empty (a truthy text hits the first branch, an
empty one the `comp.type == 'Plain'` fallback); `At` and `Reply` components
carry neither a `text` attribute nor an image reference and contribute
nothing; an image contributes its url, else its file reference, if truthy. -/
def extractComp (acc : List String × List String) (comp : Component) :
    List String × List String :=
  match comp with
  | Component.Plain t => (acc.1 ++ [t], acc.2)
  | Component.At _ => acc
  | Component.Img url file =>
      if url ≠ "" then (acc.1, acc.2 ++ [url])
      else if file ≠ "" then (acc.1, acc.2 ++ [file])
      else acc
  | Component.ReplyBox _ _ _ _ => acc

/-- Model of `_extract_content_from_result(result)`, returning `(texts, images)`.
An empty chain is falsy, and a chain-carrying object is neither a string nor a
`result_message` carrier, so it yields nothing; a bare string is taken whole;
a `result_message` is taken only when truthy. -/
def extractContent (r : ResultObj) : List String × List String :=
  match r with
  | ResultObj.chainRes chain =>
      if chain = [] then ([], []) else chain.foldl extractComp ([], [])
  | ResultObj.strRes s => ([s], [])
  | ResultObj.msgRes s => if s = "" then ([], []) else ([s], [])

/-- The `result_texts` collected over all captured results. -/
def extractedTexts (results : List ResultObj) : List String :=
  (results.map (fun r => (extractContent r).1)).flatten

/-- The `result_images` collected over all captured results. -/
def extractedImages (results : List ResultObj) : List String :=
  (results.map (fun r => (extractContent r).2)).flatten

/-- The value `sum(len(text) for text in result_texts)`. -/
def totalTextLength (results : List ResultObj) : Nat :=
  (extractedTexts results).foldl (fun a t => a + t.length) 0

/-- The `chain` a result contributes to the combined forward node
(`if hasattr(result, 'chain') and result.chain: all_components.extend(...)`;
an empty chain extends nothing either way). -/
def resultChain (r : ResultObj) : List Component :=
  match r with
  | ResultObj.chainRes c => c
  | ResultObj.strRes _ => []
  | ResultObj.msgRes _ => []

/-! ## Invocation pipeline (`execute_command`) -/

/-- The observable state of the inbound event during an invocation.
`has_message_obj` records whether the event carries a (non-`None`)
`message_obj` with a `message` attribute; `obj_message` is the content of
`event.message_obj.message`.  The `message_obj` attribute always refers to the
same object for the whole invocation — the source captures the reference, then
mutates the object's `message` field in place — so re-assigning the attribute
to the captured reference leaves `obj_message` unchanged. -/
structure EventState where
  message_str : String
  has_message_obj : Bool
  obj_message : List Component
  sender_id : String
  platform_name : String
  self_id : String
  deriving DecidableEq, Repr

/-- One transport delivery: either `event.send(result)` for a single captured
result, or the single combined-forward send of a
`Node(uin=event.get_self_id(), name="AstrBot", content=all_components)`. -/
inductive SendCall where
  | single (r : ResultObj)
  | combined (uin : String) (name : String) (content : List Component)
  deriving DecidableEq, Repr

/-- How the resolved handler behaves when invoked: an async generator that
yields a sequence of (possibly `None`) results and completes, a generator that
yields some results and then raises, a plain awaitable returning one possibly-
`None` result (the `except TypeError` fallback path), or an awaitable that
raises. -/
inductive HandlerBehavior where
  | yields (rs : List (Option ResultObj))
  | yieldsRaise (rs : List (Option ResultObj)) (err : String)
  | single (r : Option ResultObj)
  | singleRaise (err : String)
  deriving DecidableEq, Repr

/-- The JSON payload `execute_command` serializes: absent keys are `none`
(`args` is always present but may be JSON `null`, modelled the same way). -/
structure ExecResponse where
  success : Bool
  command : Option String := none
  args : Option String := none
  result : Option String := none
  images : List String := []
  executed_as : Option String := none
  error : Option String := none
  deriving DecidableEq, Repr

/-- The fan-out decision and delivery of `execute_command` (lines 576-620):
combined forward exactly when `enable_forward` is on, the total extracted text
length strictly exceeds `forward_threshold`, and the platform is `aiocqhttp`;
on that path one combined send when some chain components were collected and
none at all otherwise; on every other path one send per captured result.
Sends are modelled as always succeeding, so the source's per-send exception
fallbacks are unreachable here. -/
def fanOutSends (st : PluginState) (ev : EventState)
    (results_to_send : List ResultObj) : List SendCall :=
  if st.enable_forward ∧ totalTextLength results_to_send > st.forward_threshold
      ∧ ev.platform_name = "aiocqhttp" then
    let all_components := (results_to_send.map resultChain).flatten
    if all_components = [] then []
    else [SendCall.combined ev.self_id "AstrBot" all_components]
  else results_to_send.map SendCall.single

/-- The tail of the `try` block once the handler has produced
`results_to_send` without raising: delivery, then restoration, then the
success payload.  `ev` carries the mutations made before the invocation;
restoration puts the original `message_str` back and re-assigns the
`message_obj` attribute to the reference captured at entry (an assignment
that cannot change `obj_message`, which was mutated in place). -/
def successFinish (st : PluginState) (ev : EventState) (original_msg : String)
    (actual_command args : String) (as_bot : Bool)
    (results_to_send : List ResultObj) :
    ExecResponse × EventState × List SendCall :=
  let result_texts := extractedTexts results_to_send
  let result_images := extractedImages results_to_send
  let sends := fanOutSends st ev results_to_send
  let ev := { ev with message_str := original_msg }
  let response : ExecResponse :=
    { success := true,
      command := some actual_command,
      args := if args = "" then none else some args }
  let response :=
    if result_texts ≠ [] then
      { response with result := some (pyJoin "\n" result_texts) }
    else response
  let response :=
    if result_images ≠ [] then
      { response with
        images := result_images,
        result :=
          if result_texts = [] then
            some ("指令返回了 " ++ toString result_images.length ++ " 张图片")
          else response.result }
    else response
  let response :=
    if result_texts = [] ∧ result_images = [] then
      { response with result := some "指令执行完成（无输出内容）" }
    else response
  let response :=
    { response with
      executed_as := some (if as_bot then "bot" else "user") }
  (response, ev, sends)

/-- The `except Exception` path: restore `message_str` (the `message_obj`
attribute is not re-assigned here, and its in-place mutation is not undone on
any path) and return the failure payload.  No delivery has happened when the
handler raises. -/
def exceptFinish (ev : EventState) (original_msg : String)
    (actual_command : String) (err : String) :
    ExecResponse × EventState × List SendCall :=
  ({ success := false,
     command := some actual_command,
     error := some ("执行失败: " ++ err) },
   { ev with message_str := original_msg },
   [])

/-- Steps 4-7 of `execute_command`, entered once the command has been resolved
to `handler_info` and the owning plugin instance located: capture the original
state, optionally wrap the event (the wrapper delegates `message_str` writes,
`message_obj` access, `send`, `get_platform_name` and `get_self_id` to the
original event, so the event state threads through unchanged; the policy check
already ran on the unwrapped event), mutate `message_str` and — when mention
targets or a quoted image are supplied and the event supports it —
`message_obj.message`, invoke the handler, deliver, restore, respond. -/
def runResolved (st : PluginState) (ev : EventState)
    (actual_command args : String) (at_qq_list : List String)
    (reply_image_url : String) (as_bot : Bool) (hb : HandlerBehavior) :
    ExecResponse × EventState × List SendCall :=
  let original_msg := ev.message_str
  let new_msg :=
    if args ≠ "" then "/" ++ actual_command ++ " " ++ args
    else "/" ++ actual_command
  let ev := { ev with message_str := new_msg }
  let ev :=
    if at_qq_list ≠ [] ∨ reply_image_url ≠ "" then
      if ev.has_message_obj then
        let comps :=
          buildMessageComponents actual_command args at_qq_list reply_image_url
        { ev with obj_message := comps }
      else ev
    else ev
  match hb with
  | HandlerBehavior.yields rs =>
      successFinish st ev original_msg actual_command args as_bot
        (rs.filterMap id)
  | HandlerBehavior.yieldsRaise _ err =>
      exceptFinish ev original_msg actual_command err
  | HandlerBehavior.single r =>
      successFinish st ev original_msg actual_command args as_bot
        (match r with | some x => [x] | none => [])
  | HandlerBehavior.singleRaise err =>
      exceptFinish ev original_msg actual_command err

/-- Model of `execute_command(event, **kwargs)`.  Inputs mirror the kwargs (already
defaulted: `command`, `args` and `reply_image_url` arrive as raw strings and
are stripped here; an absent `at_qq_list` is `[]`; an absent `as_bot` is
`false`).  `stars`/`registry` are the host collaborators consulted by the lazy
cache rebuild and by `_get_plugin_instance`; `hb` is the resolved handler's
behavior.  Returns the response payload, the plugin state (possibly with
rebuilt caches), the final event state, and the trace of sends. -/
def executeCommand (stars : List StarInfo) (registry : List RegEntry)
    (st : PluginState) (ev : EventState)
    (command0 args0 : String) (at_qq_list : List String)
    (reply_image_url0 : String) (as_bot : Bool) (hb : HandlerBehavior) :
    ExecResponse × PluginState × EventState × List SendCall :=
  let command := pyStrip command0
  let args := pyStrip args0
  let reply_image_url := pyStrip reply_image_url0
  if command = "" then
    ({ success := false, error := some "缺少必需参数: command" }, st, ev, [])
  else
    let st :=
      if st.handler_cache = [] then
        let caches := buildHandlerCache stars registry
        { st with
          handler_cache := caches.handler_cache,
          alias_to_command := caches.alias_to_command }
      else st
    let gate := canExecute st command ev.sender_id
    if ¬ gate.1 then
      ({ success := false, error := some gate.2 }, st, ev, [])
    else
      let command := stripSlash command
      let actual_command := (lookupA command st.alias_to_command).getD command
      match lookupA actual_command st.handler_cache with
      | none =>
          ({ success := false, error := some ("未找到指令: " ++ command) },
           st, ev, [])
      | some handler_info =>
          if ¬ stars.any (fun s => s.module_path = handler_info.module_path)
          then
            ({ success := false,
               error := some ("无法获取指令 " ++ command ++ " 所属插件的实例") },
             st, ev, [])
          else
            let out := runResolved st ev actual_command args at_qq_list
              reply_image_url as_bot hb
            (out.1, st, out.2.1, out.2.2)

/-- A rebuild of the plugin's two maps in place (`_build_handler_cache` run on
the mutable plugin state). -/
def rebuildCache (st : PluginState) (stars : List StarInfo)
    (registry : List RegEntry) : PluginState :=
  let caches := buildHandlerCache stars registry
  { st with
    handler_cache := caches.handler_cache,
    alias_to_command := caches.alias_to_command }

/-- The per-record comparison used to compare index snapshots:
canonical name, description, alias set, admin flag. -/
def recordProjection (i : HandlerInfo) : String × String × List String × Bool :=
  (i.command, i.description, i.aliases, i.is_admin)

/-- The canonical resolution a command name undergoes inside `_can_execute`
(and again at step 2 of `execute_command`): strip one leading slash, then
follow the alias index with the stripped name itself as fallback. -/
def actualOf (st : PluginState) (cmd : String) : String :=
  (lookupA (stripSlash cmd) st.alias_to_command).getD (stripSlash cmd)

/-! ## Concrete instances used by the concrete runs below -/

/-- A cached record for a non-admin command 禁言 provided by plugin `p`
loaded from module `m`. -/
def banInfo : HandlerInfo :=
  { command := "禁言", description := "无描述", plugin := "p", aliases := [],
    is_admin := false, handler := 0, module_path := "m" }

/-- An admin-only record for a command `mute`. -/
def muteInfo : HandlerInfo :=
  { banInfo with command := "mute", is_admin := true }

/-- A plugin state with default-like configuration and 禁言 cached. -/
def baseState : PluginState :=
  { enabled := true, whitelist := [], blacklist := [],
    allow_admin_commands := false, admin_users := [], bot_user_id := "bot_self",
    enable_forward := false, forward_threshold := 1500,
    handler_cache := [("禁言", banInfo)], alias_to_command := [] }

/-- The same state with combined forward enabled at threshold 0. -/
def forwardState : PluginState :=
  { baseState with enable_forward := true, forward_threshold := 0 }

/-- A state caching the admin-only `mute` with alias `m1` and with `alice`
configured as admin user. -/
def adminState : PluginState :=
  { baseState with
    handler_cache := [("mute", muteInfo)],
    alias_to_command := [("m1", "mute")], admin_users := ["alice"] }

/-- A state where 禁言 carries the alias `ban` and the whitelist holds only
the alias form, and a matching blacklist variant. -/
def aliasState : PluginState :=
  { baseState with
    alias_to_command := [("ban", "禁言")],
    whitelist := ["ban"] }

/-- The `aliasState` variant with a blacklist instead of a whitelist. -/
def aliasBlackState : PluginState :=
  { baseState with
    alias_to_command := [("ban", "禁言")],
    blacklist := ["ban"] }

/-- An inbound event whose `message_obj.message` holds one plain segment. -/
def sampleEvent : EventState :=
  { message_str := "hi", has_message_obj := true,
    obj_message := [Component.Plain "hello"], sender_id := "u",
    platform_name := "aiocqhttp", self_id := "s" }

/-- The single active star owning module `m`. -/
def sampleStars : List StarInfo :=
  [{ name := "p", module_path := "m", activated := true }]

/-- A registry with one handler declaring command `c` with alias `x`. -/
def sampleRegistry : List RegEntry :=
  [{ isMeta := true, module_path := "m", desc := "d",
     filters := [EventFilter.commandF "c" ["x"]], hid := 7 }]

/-! ## Dictionary lemmas -/

theorem lookupA_map_replace {α : Type} (k : String) (v : α)
    (m : List (String × α)) :
    lookupA k (m.map (fun p => if p.1 = k then (k, v) else p)) =
      (lookupA k m).map (fun _ => v) := by
  induction m with
  | nil => rfl
  | cons hd t ih =>
    obtain ⟨a, b⟩ := hd
    simp only [List.map_cons]
    by_cases hak : a = k
    · rw [if_pos (show (a, b).1 = k from hak)]
      subst hak
      simp [lookupA, ih]
    · rw [if_neg (show ¬ (a, b).1 = k from hak)]
      simp [lookupA, hak, ih]

theorem lookupA_map_replace_ne {α : Type} (k k' : String) (v : α)
    (h : k' ≠ k) (m : List (String × α)) :
    lookupA k' (m.map (fun p => if p.1 = k then (k, v) else p)) =
      lookupA k' m := by
  induction m with
  | nil => rfl
  | cons hd t ih =>
    obtain ⟨a, b⟩ := hd
    simp only [List.map_cons]
    by_cases hak : a = k
    · rw [if_pos (show (a, b).1 = k from hak)]
      subst hak
      simp [lookupA, Ne.symm h, ih]
    · rw [if_neg (show ¬ (a, b).1 = k from hak)]
      simp [lookupA, ih]

theorem lookupA_append {α : Type} (k : String) (m l : List (String × α)) :
    lookupA k (m ++ l) =
      (if (lookupA k m).isSome then lookupA k m else lookupA k l) := by
  induction m with
  | nil => simp [lookupA]
  | cons hd t ih =>
    obtain ⟨a, b⟩ := hd
    by_cases hak : a = k
    · simp [lookupA, hak]
    · simp [lookupA, hak, ih]

theorem lookupA_insertA_self {α : Type} (m : List (String × α)) (k : String)
    (v : α) :
    lookupA k (insertA m k v) = some v := by
  unfold insertA
  by_cases h : (lookupA k m).isSome
  · rw [if_pos h, lookupA_map_replace]
    cases hm : lookupA k m with
    | none => rw [hm] at h; simp at h
    | some b => simp
  · rw [if_neg h, lookupA_append, if_neg h]
    simp [lookupA]

theorem lookupA_insertA_ne {α : Type} (m : List (String × α)) (k k' : String)
    (v : α) (h : k' ≠ k) :
    lookupA k' (insertA m k v) = lookupA k' m := by
  unfold insertA
  by_cases hs : (lookupA k m).isSome
  · rw [if_pos hs, lookupA_map_replace_ne k k' v h]
  · rw [if_neg hs, lookupA_append]
    by_cases h2 : (lookupA k' m).isSome
    · rw [if_pos h2]
    · rw [if_neg h2]
      rw [Option.not_isSome_iff_eq_none] at h2
      rw [h2]
      simp [lookupA, Ne.symm h]

theorem lookupA_insertA_isSome {α : Type} (m : List (String × α))
    (k k' : String) (v : α) :
    (lookupA k' (insertA m k v)).isSome ↔
      (k' = k ∨ (lookupA k' m).isSome) := by
  by_cases h : k' = k
  · subst h
    simp [lookupA_insertA_self]
  · rw [lookupA_insertA_ne m k k' v h]
    simp [h]

/-! ## Theorems about the identity substitution wrapper -/

/-- C7 counterexample: the claim says every attribute read other than the
caller-identity accessor returns the wrapped event's attribute, but a read of
the wrapper's internal field `_bot_user_id` — a name distinct from
`get_sender_id` — returns the wrapper's own value, not the wrapped event's
attribute of that name. -/
theorem wrapper_internal_read_counterexample :
    wrapperGetAttr
        { _original_event :=
            { sender_id := "u", attrs := [("_bot_user_id", PyVal.str "orig")] },
          _bot_user_id := "B" } "_bot_user_id" = some (PyVal.str "B") ∧
      eventGetAttr
          { sender_id := "u", attrs := [("_bot_user_id", PyVal.str "orig")] }
          "_bot_user_id" = some (PyVal.str "orig") ∧
      ("_bot_user_id" : String) ≠ "get_sender_id" := by
  refine ⟨rfl, rfl, by decide⟩

/-- C7 (amended): the wrapper overrides only the caller-identity accessor
`get_sender_id`, returning the fixed substituted identity; every attribute
read of a name other than `get_sender_id` and the wrapper's two internal
fields returns the wrapped event's attribute; and every attribute write other
than to the two internal fields lands on the underlying original event (whose
updated state the wrapper keeps holding), not on a local copy. -/
theorem wrapper_delegation (e : PyEvent) (bid : String) (name : String)
    (v : PyVal) :
    wrapperGetSenderId { _original_event := e, _bot_user_id := bid } = bid ∧
      wrapperGetAttr { _original_event := e, _bot_user_id := bid }
          "get_sender_id" = some (PyVal.senderMethod bid) ∧
      (name ≠ "get_sender_id" → name ≠ "_original_event" →
        name ≠ "_bot_user_id" →
          wrapperGetAttr { _original_event := e, _bot_user_id := bid } name =
            eventGetAttr e name) ∧
      (name ≠ "_original_event" → name ≠ "_bot_user_id" →
        (wrapperSetAttr { _original_event := e, _bot_user_id := bid } name
            v)._original_event = eventSetAttr e name v ∧
          (wrapperSetAttr { _original_event := e, _bot_user_id := bid } name
            v)._bot_user_id = bid) := by
  refine ⟨rfl, rfl, ?_, ?_⟩
  · intro h1 h2 h3
    unfold wrapperGetAttr
    rw [if_neg h1, if_neg h2, if_neg h3]
  · intro h2 h3
    unfold wrapperSetAttr
    rw [if_neg (by exact not_or.mpr ⟨h2, h3⟩)]
    exact ⟨rfl, rfl⟩

/-- Witness for the C7 theorem at a concrete event: a `message_str` read
delegates, and a `message_str` write mutates the held original event. -/
theorem wrapper_delegation_witness :
    wrapperGetAttr
        { _original_event := { sender_id := "u", attrs := [] },
          _bot_user_id := "B" } "message_str" =
      eventGetAttr { sender_id := "u", attrs := [] } "message_str" ∧
    (wrapperSetAttr
        { _original_event := { sender_id := "u", attrs := [] },
          _bot_user_id := "B" } "message_str"
        (PyVal.str "/ban"))._original_event =
      eventSetAttr { sender_id := "u", attrs := [] } "message_str"
        (PyVal.str "/ban") := by
  refine ⟨?_, ?_⟩
  · exact (wrapper_delegation { sender_id := "u", attrs := [] } "B"
      "message_str" (PyVal.str "/ban")).2.2.1
      (by decide) (by decide) (by decide)
  · exact ((wrapper_delegation { sender_id := "u", attrs := [] } "B"
      "message_str" (PyVal.str "/ban")).2.2.2
      (by decide) (by decide)).1

/-! ## Theorems about the message synthesizer -/

/-- C3: the three fixed synthesizer cases.  With a placeholder in the
arguments, `build` emits the command text, the mention at the placeholder's
position, and the remaining argument text; with mentions but no placeholder it
emits command text, the mentions in order, then the argument text; with
neither mentions nor arguments it emits the bare command text. -/
theorem synthesizer_concrete_cases :
    buildMessageComponents "禁言" "@0 60" ["123"] "" =
        [Component.Plain "/禁言", Component.At "123", Component.Plain " 60"] ∧
      buildMessageComponents "禁言" "60" ["123"] "" =
        [Component.Plain "/禁言", Component.At "123", Component.Plain " 60"] ∧
      buildMessageComponents "签到" "" [] "" = [Component.Plain "/签到"] := by
  refine ⟨by decide, by decide, by decide⟩

/-! ## Theorems about rebuild idempotence -/

/-- C9: rebuilding twice against unchanged active extensions and an unchanged
handler registry yields index snapshots that agree, per canonical name, on
(name, description, alias set, admin flag).  The rebuild clears and fully
replaces both maps, so its output does not depend on the prior index state. -/
theorem rebuild_idempotent (st : PluginState) (stars : List StarInfo)
    (registry : List RegEntry) (key : String) :
    Option.map recordProjection
        (lookupA key (rebuildCache (rebuildCache st stars registry) stars
          registry).handler_cache) =
      Option.map recordProjection
        (lookupA key (rebuildCache st stars registry).handler_cache) := rfl

/-! ## Theorems about the missing-command short circuit -/

/-- C10: when the `command` kwarg is missing or whitespace-only after
stripping, `execute_command` returns the missing-parameter failure payload
before the lazy cache rebuild, before any policy check, and before any event
mutation: the plugin state and the event come back unchanged and no send
occurs. -/
theorem missing_command_short_circuit (stars : List StarInfo)
    (registry : List RegEntry) (st : PluginState) (ev : EventState)
    (command0 args0 : String) (at_qq_list : List String)
    (reply_image_url0 : String) (as_bot : Bool) (hb : HandlerBehavior)
    (h : pyStrip command0 = "") :
    executeCommand stars registry st ev command0 args0 at_qq_list
        reply_image_url0 as_bot hb =
      ({ success := false, error := some "缺少必需参数: command" },
       st, ev, []) := by
  unfold executeCommand
  rw [h]
  simp

/-- Witness for C10: a whitespace-only command short-circuits. -/
theorem missing_command_short_circuit_witness :
    pyStrip "   " = "" ∧
      executeCommand sampleStars [] baseState sampleEvent "   " "" [] "" false
          (HandlerBehavior.yields []) =
        ({ success := false, error := some "缺少必需参数: command" },
         baseState, sampleEvent, []) := by
  refine ⟨by decide, ?_⟩
  exact missing_command_short_circuit sampleStars [] baseState sampleEvent
    "   " "" [] "" false (HandlerBehavior.yields []) (by decide)

/-! ## Theorems about the policy gate -/

/-- C2: on an admin-only command that resolves and passes the enable,
whitelist and blacklist checks, a caller whose identity is in `admin_users` is
allowed even when `allow_admin_commands` is off; a caller not in `admin_users`
is denied when `allow_admin_commands` is off and allowed when it is on. -/
theorem admin_gate (st : PluginState) (cmd senderId : String)
    (info : HandlerInfo)
    (hen : st.enabled = true)
    (hinfo : lookupA (actualOf st cmd) st.handler_cache = some info)
    (hadmin : info.is_admin = true)
    (hwl : ¬ (st.whitelist ≠ [] ∧ actualOf st cmd ∉ st.whitelist ∧
      stripSlash cmd ∉ st.whitelist))
    (hbl : ¬ (st.blacklist ≠ [] ∧ (actualOf st cmd ∈ st.blacklist ∨
      stripSlash cmd ∈ st.blacklist))) :
    (senderId ∈ st.admin_users →
        canExecute st cmd senderId = (true, "可以执行（管理员用户）")) ∧
      (senderId ∉ st.admin_users → st.allow_admin_commands = false →
        canExecute st cmd senderId =
          (false, "指令 " ++ stripSlash cmd ++
            " 需要管理员权限，你不在管理员列表中")) ∧
      (senderId ∉ st.admin_users → st.allow_admin_commands = true →
        canExecute st cmd senderId = (true, "可以执行")) := by
  have hact : (lookupA (stripSlash cmd) st.alias_to_command).getD
      (stripSlash cmd) = actualOf st cmd := rfl
  have hred : ∀ s : String, canExecute st cmd s =
      (if s ∈ st.admin_users then (true, "可以执行（管理员用户）")
       else if ¬ st.allow_admin_commands then
         (false, "指令 " ++ stripSlash cmd ++
           " 需要管理员权限，你不在管理员列表中")
       else (true, "可以执行")) := by
    intro s
    simp only [canExecute]
    rw [if_neg (show ¬ ¬ st.enabled = true by simp [hen]), hact]
    split
    · rename_i heq
      rw [hinfo] at heq
      cases heq
    · rename_i handler_info heq
      rw [hinfo] at heq
      injection heq with heq
      subst heq
      rw [if_neg hwl, if_neg hbl, if_pos hadmin]
  refine ⟨?_, ?_, ?_⟩
  · intro h1
    rw [hred senderId, if_pos h1]
  · intro h1 h2
    rw [hred senderId, if_neg h1, if_pos (by simp [h2])]
  · intro h1 h2
    rw [hred senderId, if_neg h1, if_neg (by simp [h2])]

/-- Witness for C2 on `adminState`: `alice` (configured admin) is allowed on
the admin-only `mute` although `allow_admin_commands` is off, while `bob` is
denied. -/
theorem admin_gate_witness :
    canExecute adminState "mute" "alice" = (true, "可以执行（管理员用户）") ∧
      canExecute adminState "mute" "bob" =
        (false, "指令 mute 需要管理员权限，你不在管理员列表中") := by
  constructor
  · exact (admin_gate adminState "mute" "alice" muteInfo rfl (by decide)
      (by decide) (by decide) (by decide)).1 (by decide)
  · exact ((admin_gate adminState "mute" "bob" muteInfo rfl (by decide)
      (by decide) (by decide) (by decide)).2.1 (by decide) rfl)

/-- C8: when the stripped command name and its canonical (alias-resolved) form
differ, presence of either form in a non-empty whitelist suffices to pass the
whitelist check (the gate then behaves exactly as it would with no whitelist
configured), absence of both forms denies, and presence of either form in a
non-empty blacklist denies. -/
theorem whitelist_blacklist_both_forms (st : PluginState)
    (cmd senderId : String) (info : HandlerInfo)
    (hen : st.enabled = true)
    (hinfo : lookupA (actualOf st cmd) st.handler_cache = some info)
    (hdiff : stripSlash cmd ≠ actualOf st cmd) :
    (st.whitelist ≠ [] → actualOf st cmd ∉ st.whitelist →
        stripSlash cmd ∉ st.whitelist →
        canExecute st cmd senderId =
          (false, "指令 " ++ stripSlash cmd ++ " 不在白名单中")) ∧
      ((actualOf st cmd ∈ st.whitelist ∨ stripSlash cmd ∈ st.whitelist) →
        canExecute st cmd senderId =
          canExecute { st with whitelist := [] } cmd senderId) ∧
      (st.blacklist ≠ [] →
        (actualOf st cmd ∈ st.blacklist ∨ stripSlash cmd ∈ st.blacklist) →
        (canExecute st cmd senderId).1 = false) := by
  have hact : (lookupA (stripSlash cmd) st.alias_to_command).getD
      (stripSlash cmd) = actualOf st cmd := rfl
  refine ⟨?_, ?_, ?_⟩
  · intro h1 h2 h3
    simp only [canExecute]
    rw [if_neg (show ¬ ¬ st.enabled = true by simp [hen]), hact]
    split
    · rename_i heq
      rw [hinfo] at heq
      cases heq
    · rename_i handler_info heq
      rw [if_pos ⟨h1, h2, h3⟩]
  · intro h1
    simp only [canExecute]
    rw [if_neg (show ¬ ¬ st.enabled = true by simp [hen]),
      if_neg (show ¬ ¬ ({ st with whitelist := [] } : PluginState).enabled =
        true by simp [hen])]
    rw [show ({ st with whitelist := [] } : PluginState).alias_to_command =
      st.alias_to_command from rfl, hact]
    split
    · rfl
    · rename_i handler_info heq
      rw [if_neg (show ¬ (st.whitelist ≠ [] ∧ actualOf st cmd ∉ st.whitelist ∧
          stripSlash cmd ∉ st.whitelist) by
        rcases h1 with h | h
        · exact fun hc => hc.2.1 h
        · exact fun hc => hc.2.2 h)]
      rw [if_neg (show ¬ ((({ st with whitelist := [] } : PluginState).whitelist
          ≠ []) ∧ actualOf st cmd ∉
            ({ st with whitelist := [] } : PluginState).whitelist ∧
          stripSlash cmd ∉
            ({ st with whitelist := [] } : PluginState).whitelist) by
        intro hc
        exact hc.1 rfl)]
  · intro h1 h2
    simp only [canExecute]
    rw [if_neg (show ¬ ¬ st.enabled = true by simp [hen]), hact]
    split
    · rfl
    · rename_i handler_info heq
      by_cases hw : st.whitelist ≠ [] ∧ actualOf st cmd ∉ st.whitelist ∧
          stripSlash cmd ∉ st.whitelist
      · rw [if_pos hw]
      · rw [if_neg hw, if_pos ⟨h1, h2⟩]

/-- Witness for C8 on `aliasState`/`aliasBlackState`: for the given name
`ban`, whose stripped form `ban` differs from its canonical resolution 禁言,
presence of the raw form in the whitelist passes the whitelist check, and
presence of the raw form in the blacklist denies. -/
theorem whitelist_blacklist_both_forms_witness :
    canExecute aliasState "ban" "u" =
        canExecute { aliasState with whitelist := [] } "ban" "u" ∧
      (canExecute aliasBlackState "ban" "u").1 = false := by
  constructor
  · exact (whitelist_blacklist_both_forms aliasState "ban" "u" banInfo rfl
      (by decide) (by decide)).2.1 (Or.inr (by decide))
  · exact (whitelist_blacklist_both_forms aliasBlackState "ban" "u" banInfo
      rfl (by decide) (by decide)).2.2 (by decide) (Or.inr (by decide))

/-! ## Theorems about the handler index -/

theorem lookupA_moduleMap_isSome (stars : List StarInfo) (m : String) :
    (lookupA m (buildModuleMap stars)).isSome ↔
      ∃ s ∈ stars, s.name ∉ skipPlugins ∧ s.module_path ≠ "" ∧
        s.module_path = m := by
  have main : ∀ (l : List StarInfo) (acc : List (String × String)),
      (lookupA m (l.foldl
        (fun mm star =>
          if star.name ∈ skipPlugins ∨ star.module_path = "" then mm
          else insertA mm star.module_path star.name) acc)).isSome ↔
        ((lookupA m acc).isSome ∨
          ∃ s ∈ l, s.name ∉ skipPlugins ∧ s.module_path ≠ "" ∧
            s.module_path = m) := by
    intro l
    induction l with
    | nil => simp
    | cons hd t ih =>
      intro acc
      rw [List.foldl_cons, ih]
      by_cases h1 : hd.name ∈ skipPlugins ∨ hd.module_path = ""
      · rw [if_pos h1]
        simp only [List.mem_cons]
        constructor
        · rintro (h | ⟨s, hs, hp⟩)
          · exact Or.inl h
          · exact Or.inr ⟨s, Or.inr hs, hp⟩
        · rintro (h | ⟨s, hs | hs, hp⟩)
          · exact Or.inl h
          · subst hs
            rcases h1 with h1 | h1
            · exact absurd h1 hp.1
            · exact absurd h1 hp.2.1
          · exact Or.inr ⟨s, hs, hp⟩
      · rw [if_neg h1]
        push_neg at h1
        rw [lookupA_insertA_isSome]
        simp only [List.mem_cons]
        constructor
        · rintro ((h | h) | ⟨s, hs, hp⟩)
          · exact Or.inr ⟨hd, Or.inl rfl, h1.1, h1.2, h.symm⟩
          · exact Or.inl h
          · exact Or.inr ⟨s, Or.inr hs, hp⟩
        · rintro (h | ⟨s, hs | hs, hp⟩)
          · exact Or.inl (Or.inr h)
          · subst hs
            exact Or.inl (Or.inl hp.2.2.symm)
          · exact Or.inr ⟨s, hs, hp⟩
  rw [buildModuleMap, main stars []]
  simp [lookupA]

theorem cacheStep_lookup_isSome (m2s : List (String × String))
    (acc : HandlerCaches) (e : RegEntry) (key : String) :
    (lookupA key (cacheStep m2s acc e).handler_cache).isSome ↔
      ((lookupA key acc.handler_cache).isSome ∨
        (e.isMeta = true ∧ (lookupA e.module_path m2s).isSome ∧
          ∃ n, (scanFilters e.filters).1 = some n ∧ n ≠ "" ∧
            stripSlash n = key)) := by
  unfold cacheStep
  by_cases hm : e.isMeta = true
  case neg =>
    rw [if_pos (by simp [hm])]
    simp [hm]
  case pos =>
  rw [if_neg (by simp [hm])]
  rcases heq : lookupA e.module_path m2s with _ | pn
  · simp [hm]
  · rcases heq2 : scanFilters e.filters with ⟨_ | cn, aliases, is_admin⟩
    · simp [hm]
    · by_cases hcn : cn = ""
      · subst hcn
        simp [hm]
      · dsimp only
        rw [if_neg hcn]
        dsimp only
        rw [lookupA_insertA_isSome]
        constructor
        · rintro (h | h)
          · exact Or.inr ⟨hm, rfl, cn, rfl, hcn, h.symm⟩
          · exact Or.inl h
        · rintro (h | ⟨-, -, n, hn, hne, hk⟩)
          · exact Or.inr h
          · have hn' : some cn = some n := hn
            injection hn' with hn'
            subst hn'
            exact Or.inl hk.symm

theorem cacheFold_lookup_isSome (m2s : List (String × String))
    (registry : List RegEntry) (acc : HandlerCaches) (key : String) :
    (lookupA key ((registry.foldl (cacheStep m2s) acc).handler_cache)).isSome ↔
      ((lookupA key acc.handler_cache).isSome ∨
        ∃ e ∈ registry, e.isMeta = true ∧
          (lookupA e.module_path m2s).isSome ∧
          ∃ n, (scanFilters e.filters).1 = some n ∧ n ≠ "" ∧
            stripSlash n = key) := by
  induction registry generalizing acc with
  | nil => simp
  | cons hd t ih =>
    rw [List.foldl_cons, ih, cacheStep_lookup_isSome]
    simp only [List.mem_cons]
    constructor
    · rintro ((h | h) | ⟨e, he, hp⟩)
      · exact Or.inl h
      · exact Or.inr ⟨hd, Or.inl rfl, h⟩
      · exact Or.inr ⟨e, Or.inr he, hp⟩
    · rintro (h | ⟨e, he | he, hp⟩)
      · exact Or.inl (Or.inl h)
      · subst he
        exact Or.inl (Or.inr hp)
      · exact Or.inr ⟨e, he, hp⟩

theorem scanFilters_fst_none (fs : List EventFilter) :
    (scanFilters fs).1 = none ↔ ∀ f ∈ fs, isCommandOrGroup f = false := by
  have main : ∀ (l : List EventFilter)
      (st : Option String × List String × Bool),
      ((l.foldl
        (fun st f =>
          match f with
          | EventFilter.commandF n al =>
              (some n, (if al = [] then st.2.1 else al), st.2.2)
          | EventFilter.groupF n => (some n, st.2.1, st.2.2)
          | EventFilter.permissionF => (st.1, st.2.1, true)
          | EventFilter.otherF => st) st).1 = none) ↔
        (st.1 = none ∧ ∀ f ∈ l, isCommandOrGroup f = false) := by
    intro l
    induction l with
    | nil => simp
    | cons hd t ih =>
      intro st
      rw [List.foldl_cons, ih]
      cases hd with
      | commandF n al => simp [isCommandOrGroup]
      | groupF n => simp [isCommandOrGroup]
      | permissionF => simp [isCommandOrGroup]
      | otherF => simp [isCommandOrGroup]
  rw [scanFilters, main fs (none, [], false)]
  simp

/-- C5: after a rebuild the index holds exactly the prefix-stripped names
declared (by the filter scan) by registry handlers that belong to an active,
non-excluded extension; and a handler declares a name exactly when its filters
include a command filter or a command-group filter, so a handler with neither
is never indexed and no excluded extension's command ever appears. -/
theorem handler_index_contents :
    (∀ (stars : List StarInfo) (registry : List RegEntry) (key : String),
        (lookupA key (buildHandlerCache stars registry).handler_cache).isSome ↔
          ∃ e ∈ registry, e.isMeta = true ∧
            (∃ s ∈ stars, s.activated = true ∧ s.name ∉ skipPlugins ∧
              s.module_path ≠ "" ∧ s.module_path = e.module_path) ∧
            ∃ n, (scanFilters e.filters).1 = some n ∧ n ≠ "" ∧
              stripSlash n = key) ∧
      (∀ fs : List EventFilter,
        ((scanFilters fs).1 = none ↔
          ∀ f ∈ fs, isCommandOrGroup f = false)) := by
  refine ⟨?_, scanFilters_fst_none⟩
  intro stars registry key
  unfold buildHandlerCache
  by_cases hA : stars.filter (fun s => s.activated) = []
  · rw [if_pos hA]
    rw [List.filter_eq_nil_iff] at hA
    simp only [lookupA]
    constructor
    · intro h
      cases h
    · rintro ⟨e, -, -, ⟨s, hs, hact, -⟩, -⟩
      exact absurd (by simpa using hact) (hA s hs)
  · rw [if_neg hA, cacheFold_lookup_isSome]
    simp only [lookupA, Option.isSome_none, Bool.false_eq_true, false_or]
    constructor
    · rintro ⟨e, he, hm, hmap, n, hn⟩
      rw [lookupA_moduleMap_isSome] at hmap
      obtain ⟨s, hs, hsprop⟩ := hmap
      rw [List.mem_filter] at hs
      exact ⟨e, he, hm, ⟨s, hs.1, by simpa using hs.2, hsprop⟩, n, hn⟩
    · rintro ⟨e, he, hm, ⟨s, hs, hact, hsk, hmp, hm2⟩, n, hn⟩
      refine ⟨e, he, hm, ?_, n, hn⟩
      rw [lookupA_moduleMap_isSome]
      exact ⟨s, List.mem_filter.mpr ⟨hs, by simpa using hact⟩, hsk, hmp, hm2⟩

/-- Witness for C5 on the sample snapshot: the key `c` is present, and it is
justified by the sample registry's only handler. -/
theorem handler_index_contents_witness :
    (lookupA "c" (buildHandlerCache sampleStars
      sampleRegistry).handler_cache).isSome := by
  exact (handler_index_contents.1 sampleStars sampleRegistry "c").mpr
    ⟨{ isMeta := true, module_path := "m", desc := "d",
       filters := [EventFilter.commandF "c" ["x"]], hid := 7 },
     by decide,
     rfl,
     ⟨{ name := "p", module_path := "m", activated := true }, by decide,
      rfl, by decide, by decide, rfl⟩,
     "c", by decide, by decide, rfl⟩

theorem aliasFold_lookup (aliases : List String) (cn : String) :
    ∀ (al0 : List (String × String)) (a c : String),
      lookupA a (aliases.foldl
        (fun al x => insertA al (stripSlash x) cn) al0) = some c →
        c = cn ∨ lookupA a al0 = some c := by
  induction aliases with
  | nil =>
    intro al0 a c h
    exact Or.inr h
  | cons hd t ih =>
    intro al0 a c h
    rw [List.foldl_cons] at h
    rcases ih _ a c h with h1 | h2
    · exact Or.inl h1
    · by_cases hax : a = stripSlash hd
      · subst hax
        rw [lookupA_insertA_self] at h2
        injection h2 with h2
        exact Or.inl h2.symm
      · rw [lookupA_insertA_ne _ _ _ _ hax] at h2
        exact Or.inr h2

theorem cacheStep_alias_inv (m2s : List (String × String))
    (acc : HandlerCaches) (e : RegEntry)
    (hinv : ∀ a c, lookupA a acc.alias_to_command = some c →
      (lookupA c acc.handler_cache).isSome) :
    ∀ a c, lookupA a (cacheStep m2s acc e).alias_to_command = some c →
      (lookupA c (cacheStep m2s acc e).handler_cache).isSome := by
  intro a c
  unfold cacheStep
  by_cases hm : e.isMeta = true
  case neg =>
    rw [if_pos (by simp [hm])]
    exact hinv a c
  case pos =>
  rw [if_neg (by simp [hm])]
  rcases heq : lookupA e.module_path m2s with _ | pn
  · exact hinv a c
  · rcases heq2 : scanFilters e.filters with ⟨_ | cn0, aliases, is_admin⟩
    · exact hinv a c
    · by_cases hcn : cn0 = ""
      · subst hcn
        simp only [if_pos rfl]
        exact hinv a c
      · dsimp only
        rw [if_neg hcn]
        dsimp only
        intro h
        rcases aliasFold_lookup aliases (stripSlash cn0) _ a c h with h1 | h2
        · subst h1
          rw [lookupA_insertA_self]
          rfl
        · rw [lookupA_insertA_isSome]
          exact Or.inr (hinv a c h2)

theorem cacheFold_alias_inv (m2s : List (String × String))
    (registry : List RegEntry) :
    ∀ acc : HandlerCaches,
      (∀ a c, lookupA a acc.alias_to_command = some c →
        (lookupA c acc.handler_cache).isSome) →
      ∀ a c,
        lookupA a ((registry.foldl (cacheStep m2s) acc).alias_to_command) =
          some c →
        (lookupA c ((registry.foldl (cacheStep m2s)
          acc).handler_cache)).isSome := by
  induction registry with
  | nil =>
    intro acc hinv
    exact hinv
  | cons hd t ih =>
    intro acc hinv
    rw [List.foldl_cons]
    exact ih _ (cacheStep_alias_inv m2s acc hd hinv)

/-- C6: in any snapshot produced by a rebuild, every alias present in the
alias index maps to a canonical name whose record exists in the same
snapshot's handler cache; and for every command `c` whose alias is registered
in the snapshot, resolving that alias (any name that the resolver's
slash-stripping takes to the registered alias key, in particular the alias as
the handler declared it) returns `c`'s record. -/
theorem alias_index_consistent (stars : List StarInfo)
    (registry : List RegEntry) (a c : String)
    (h : lookupA a (buildHandlerCache stars registry).alias_to_command =
      some c) :
    (lookupA c (buildHandlerCache stars registry).handler_cache).isSome ∧
      ∀ name, stripSlash name = a →
        resolveHandler (buildHandlerCache stars registry) name =
          lookupA c (buildHandlerCache stars registry).handler_cache := by
  constructor
  · unfold buildHandlerCache at h ⊢
    by_cases hA : stars.filter (fun s => s.activated) = []
    · rw [if_pos hA] at h
      cases h
    · rw [if_neg hA] at h ⊢
      exact cacheFold_alias_inv _ registry _
        (by intro a' c' h'; cases h') a c h
  · intro name hn
    unfold resolveHandler
    dsimp only
    rw [hn, h]
    rfl

/-- Witness for C6 on the sample snapshot: the alias `x` registered for `c`
maps to an existing record and resolves to `c`'s record. -/
theorem alias_index_consistent_witness :
    lookupA "x" (buildHandlerCache sampleStars
        sampleRegistry).alias_to_command = some "c" ∧
      (lookupA "c" (buildHandlerCache sampleStars
        sampleRegistry).handler_cache).isSome ∧
      resolveHandler (buildHandlerCache sampleStars sampleRegistry) "x" =
        lookupA "c" (buildHandlerCache sampleStars
          sampleRegistry).handler_cache := by
  refine ⟨by decide, ?_, ?_⟩
  · exact (alias_index_consistent sampleStars sampleRegistry "x" "c"
      (by decide)).1
  · exact (alias_index_consistent sampleStars sampleRegistry "x" "c"
      (by decide)).2 "x" (by decide)

/-! ## Theorems about the invocation pipeline -/

/-- C1 (divergence witness): `execute_command` restores `message_str` on both
the success and the exception exit path, but the structured message body does
not come back to its pre-invocation value: when mention targets are supplied,
`message_obj.message` is mutated in place to the synthesized components, the
success-path re-assignment `event.message_obj = original_message_obj` puts
back the very reference whose content was mutated, and the exception path
does not touch `message_obj` at all.  Both runs below end with
`obj_message` equal to the synthesized components, not the original ones. -/
theorem message_obj_not_restored :
    ((executeCommand sampleStars [] baseState sampleEvent "禁言" "60" ["123"]
        "" false (HandlerBehavior.yields
          [some (ResultObj.chainRes [Component.Plain "ok"])])).1.success =
        true ∧
      (executeCommand sampleStars [] baseState sampleEvent "禁言" "60" ["123"]
        "" false (HandlerBehavior.yields
          [some (ResultObj.chainRes
            [Component.Plain "ok"])])).2.2.1.message_str = "hi" ∧
      (executeCommand sampleStars [] baseState sampleEvent "禁言" "60" ["123"]
        "" false (HandlerBehavior.yields
          [some (ResultObj.chainRes
            [Component.Plain "ok"])])).2.2.1.obj_message =
        [Component.Plain "/禁言", Component.At "123",
          Component.Plain " 60"]) ∧
      ((executeCommand sampleStars [] baseState sampleEvent "禁言" "60"
          ["123"] "" false
          (HandlerBehavior.yieldsRaise [] "boom")).1.success = false ∧
        (executeCommand sampleStars [] baseState sampleEvent "禁言" "60"
          ["123"] "" false
          (HandlerBehavior.yieldsRaise [] "boom")).2.2.1.message_str = "hi" ∧
        (executeCommand sampleStars [] baseState sampleEvent "禁言" "60"
          ["123"] "" false
          (HandlerBehavior.yieldsRaise [] "boom")).2.2.1.obj_message =
          [Component.Plain "/禁言", Component.At "123",
            Component.Plain " 60"]) ∧
      sampleEvent.message_str = "hi" ∧
      sampleEvent.obj_message = [Component.Plain "hello"] ∧
      ([Component.Plain "/禁言", Component.At "123", Component.Plain " 60"] ≠
        ([Component.Plain "hello"] : List Component)) := by
  exact ⟨⟨by decide, by decide, by decide⟩, ⟨by decide, by decide, by decide⟩,
    by decide, by decide, by decide⟩

/-- C4 counterexample: a run on the batch path — batching enabled, total
extracted text length above the threshold, aiocqhttp transport — whose single
captured result is a bare string (no content chain) performs no send at all,
not one combined send. -/
theorem forward_zero_sends_counterexample :
    forwardState.enable_forward = true ∧
      totalTextLength [ResultObj.strRes "hi"] >
        forwardState.forward_threshold ∧
      sampleEvent.platform_name = "aiocqhttp" ∧
      (executeCommand sampleStars [] forwardState sampleEvent "禁言" "" [] ""
        false (HandlerBehavior.yields [some (ResultObj.strRes "hi")])).2.2.2 =
        [] := by
  exact ⟨by decide, by decide, by decide, by decide⟩

theorem fanOutSends_event_proj (st : PluginState) (ev ev' : EventState)
    (h1 : ev'.platform_name = ev.platform_name)
    (h2 : ev'.self_id = ev.self_id) (res : List ResultObj) :
    fanOutSends st ev' res = fanOutSends st ev res := by
  unfold fanOutSends
  rw [h1, h2]

/-- C4 (amended): once `execute_command` reaches delivery with the handler's
yielded results, its send trace is exactly the fan-out of the captured
(non-`None`) results; the batch path is taken exactly when batching is
enabled, the total extracted text length exceeds the threshold and the
transport is aiocqhttp, and on it exactly one combined send occurs when some
captured result carries a non-empty chain while no send at all occurs when
none does; on every other path exactly one send occurs per captured result. -/
theorem fanout_delivery (stars : List StarInfo) (registry : List RegEntry)
    (st : PluginState) (ev : EventState) (command0 args0 : String)
    (at_qq_list : List String) (reply_image_url0 : String) (as_bot : Bool)
    (rs : List (Option ResultObj)) (info : HandlerInfo)
    (hne : pyStrip command0 ≠ "")
    (hcache : st.handler_cache ≠ [])
    (hgate : (canExecute st (pyStrip command0) ev.sender_id).1 = true)
    (hinfo : lookupA (actualOf st (pyStrip command0)) st.handler_cache =
      some info)
    (hstar : stars.any (fun s => s.module_path = info.module_path) = true) :
    (executeCommand stars registry st ev command0 args0 at_qq_list
        reply_image_url0 as_bot (HandlerBehavior.yields rs)).2.2.2 =
      fanOutSends st ev (rs.filterMap id) ∧
    ((st.enable_forward = true ∧
        totalTextLength (rs.filterMap id) > st.forward_threshold ∧
        ev.platform_name = "aiocqhttp") →
      fanOutSends st ev (rs.filterMap id) =
        (if (((rs.filterMap id).map resultChain).flatten = []) then []
         else [SendCall.combined ev.self_id "AstrBot"
           (((rs.filterMap id).map resultChain).flatten)])) ∧
    (¬ (st.enable_forward = true ∧
        totalTextLength (rs.filterMap id) > st.forward_threshold ∧
        ev.platform_name = "aiocqhttp") →
      fanOutSends st ev (rs.filterMap id) =
        (rs.filterMap id).map SendCall.single) := by
  have hact : (lookupA (stripSlash (pyStrip command0)) st.alias_to_command).getD
      (stripSlash (pyStrip command0)) = actualOf st (pyStrip command0) := rfl
  refine ⟨?_, ?_, ?_⟩
  · unfold executeCommand
    dsimp only
    rw [if_neg hne, if_neg hcache, if_neg (by simp [hgate]), hact, hinfo]
    dsimp only
    rw [if_neg (by simp [hstar])]
    unfold runResolved successFinish
    dsimp only
    exact fanOutSends_event_proj st ev _
      (by split <;> first | rfl | (split <;> rfl))
      (by split <;> first | rfl | (split <;> rfl))
      (rs.filterMap id)
  · intro h
    unfold fanOutSends
    rw [if_pos h]
  · intro h
    unfold fanOutSends
    rw [if_neg h]

/-- Witness for C4 on the batch path with a chain-carrying result: exactly one
combined send with the collected components. -/
theorem fanout_delivery_witness :
    (executeCommand sampleStars [] forwardState sampleEvent "禁言" "" [] ""
        false (HandlerBehavior.yields
          [some (ResultObj.chainRes [Component.Plain "hello!"])])).2.2.2 =
      [SendCall.combined "s" "AstrBot" [Component.Plain "hello!"]] := by
  have h := fanout_delivery sampleStars [] forwardState sampleEvent "禁言" ""
    [] "" false [some (ResultObj.chainRes [Component.Plain "hello!"])] banInfo
    (by decide) (by decide) (by decide) (by decide) (by decide)
  rw [h.1, h.2.1 (by decide)]
  decide

end LLMExecutor
